import Mathlib

/-!
Shallow embedding of `src/irmx86.py`, a read-only decoder for iRMX86
filesystem images, together with theorems settling the frozen claims.

Conventions of the embedding:
* bytes are `Nat` values (each `< 256` where the source guarantees it);
* the image file handle is a `FileState` holding the byte list and the
  current position, so that `_read_without_position_change` can be
  modelled with its real seek/read/seek behaviour;
* Python exceptions are modelled by `Except PyError`, with one
  constructor per exception class the source can raise, and `Option`
  where only success/failure matters;
* timestamps are kept as raw seconds-since-epoch (`Nat`): the source
  stores `epoch + timedelta(seconds = t)`, and adding the fixed epoch is
  an order-preserving injection, so equalities between time fields are
  unaffected.
-/

deriving instance DecidableEq for Except

namespace Irmx86

/-- Little-endian value of a byte list (struct formats such as H and I). -/
def leNat (bs : List Nat) : Nat := bs.foldr (fun b acc => b + 256 * acc) 0

/-- `FileSystem._read_24bit_integer`: unpack a 3-byte little-endian value by
appending a zero high byte and decoding 4 bytes little-endian. -/
def read24bitInteger (data : List Nat) : Nat := leNat (data ++ [0])

/-- The open image: its bytes and the current position of the handle. -/
structure FileState where
  data : List Nat
  pos : Nat
deriving DecidableEq

/-- Python `fp.read(n)`: returns at most `n` bytes from the current
position (fewer at end of file, never an error) and advances. -/
def fread (s : FileState) (n : Nat) : List Nat × FileState :=
  let b := (s.data.drop s.pos).take n
  (b, ⟨s.data, s.pos + b.length⟩)

/-- Python `fp.seek(p, 0)`. -/
def fseek (s : FileState) (p : Nat) : FileState := ⟨s.data, p⟩

/-- `FileSystem._read_without_position_change`: remember the position,
seek to `start`, read `numBytes`, seek back. -/
def readWithoutPositionChange (s : FileState) (start numBytes : Nat) :
    List Nat × FileState :=
  let currentPosition := s.pos
  let s1 := fseek s start
  let r := fread s1 numBytes
  (r.1, fseek r.2 currentPosition)

/-- The `Flags` namedtuple. -/
structure Flags where
  allocated : Bool
  long_file : Bool
  modified : Bool
  deleted : Bool
deriving DecidableEq

/-- `FileSystem._parse_flags`: the 16-bit field rendered as a bit string,
reversed, so that index `i` is bit `i`. -/
def parseFlags (flags : Nat) : Flags :=
  ⟨flags.testBit 0, flags.testBit 1, flags.testBit 5, flags.testBit 6⟩

/-- The `filetypes` dictionary values. -/
inductive FileType
  | fnode_file
  | free_space_map
  | free_fnodes_map
  | space_accounting_file
  | bad_device_blocks_file
  | directory
  | data
  | unknown
deriving DecidableEq

/-- The `filetypes` dictionary; an unmapped byte is a `KeyError`. -/
def filetypeOf : Nat → Option FileType
  | 0 => some .fnode_file
  | 1 => some .free_space_map
  | 2 => some .free_fnodes_map
  | 3 => some .space_accounting_file
  | 4 => some .bad_device_blocks_file
  | 6 => some .directory
  | 8 => some .data
  | 9 => some .unknown
  | _ => none

/-- The `BlockPointer` namedtuple. -/
structure BlockPointer where
  num_blocks : Nat
  first_block : Nat
deriving DecidableEq

/-- `FileSystem._parse_pointer_data`: 8 slots of format `<H3s` (5 bytes);
slots whose 16-bit count is zero are skipped. -/
def parsePointerData (data : List Nat) : List BlockPointer :=
  (List.range 8).foldl
    (fun acc i =>
      let slice := (data.drop (5 * i)).take 5
      let numBlocks := leNat (slice.take 2)
      if numBlocks == 0 then acc
      else acc ++ [⟨numBlocks, read24bitInteger (slice.drop 2)⟩])
    []

/-- `FileSystem._parse_indirect_blocks`: read `numBlocks` records of format
`<B3s` (4 bytes) starting at byte offset `firstBlock` of the image
(the source passes `first_block` to the reader unscaled); a short read
makes `struct.unpack` fail, modelled as `none`. -/
def parseIndirectBlocks (st : FileState) (numBlocks firstBlock : Nat) :
    Option (List BlockPointer) :=
  let data := (readWithoutPositionChange st firstBlock (numBlocks * 4)).1
  if data.length < numBlocks * 4 then none
  else
    some ((List.range numBlocks).map (fun i =>
      let slice := (data.drop (4 * i)).take 4
      ⟨slice.getD 0 0, read24bitInteger (slice.drop 1)⟩))

/-- Modelled from the spec (claim C1's reading of §4.4): as
`parseIndirectBlocks`, but with the indirect region located at byte
offset `firstBlock * blockSize` instead of `firstBlock`. -/
def parseIndirectBlocksSpec (blockSize : Nat) (st : FileState)
    (numBlocks firstBlock : Nat) : Option (List BlockPointer) :=
  let data := (readWithoutPositionChange st (firstBlock * blockSize) (numBlocks * 4)).1
  if data.length < numBlocks * 4 then none
  else
    some ((List.range numBlocks).map (fun i =>
      let slice := (data.drop (4 * i)).take 4
      ⟨slice.getD 0 0, read24bitInteger (slice.drop 1)⟩))

/-- The `FileNode` namedtuple. Time fields hold raw seconds; the
`access_rights` field keeps the raw 9 bytes. -/
structure FileNode where
  flags : Flags
  type : FileType
  granularity : Nat
  owner : Nat
  creation_time : Nat
  access_time : Nat
  modification_time : Nat
  total_size : Nat
  total_blocks : Nat
  block_pointers : List BlockPointer
  size : Nat
  id_count : Nat
  access_rights : List Nat
  parent : Nat
deriving DecidableEq

/-- `FileSystem._read_fnode`: decode one record of format
`<HBBHIIIII40sI4xH9sH` (87 bytes) plus padding up to `fnodeSize`.
`none` models the exceptions the source can raise here: a negative
padding count, a record of the wrong length, an unmapped type byte
(`KeyError` on `filetypes`), or a failed indirect-block read. -/
def readFnode (st : FileState) (fnodeSize : Nat) (raw : List Nat) :
    Option FileNode :=
  if fnodeSize < 87 then none
  else if raw.length ≠ fnodeSize then none
  else
    let flags := parseFlags (leNat (raw.take 2))
    match filetypeOf (raw.getD 2 0) with
    | none => none
    | some ftype =>
      let pointers := parsePointerData ((raw.drop 26).take 40)
      let expanded :=
        if flags.long_file then
          (pointers.mapM (fun p => parseIndirectBlocks st p.num_blocks p.first_block)).map
            List.flatten
        else some pointers
      match expanded with
      | none => none
      | some blockPointers =>
        some
          { flags := flags
            type := ftype
            granularity := raw.getD 3 0
            owner := leNat ((raw.drop 4).take 2)
            creation_time := leNat ((raw.drop 6).take 4)
            access_time := leNat ((raw.drop 10).take 4)
            modification_time := leNat ((raw.drop 14).take 4)
            total_size := leNat ((raw.drop 18).take 4)
            total_blocks := leNat ((raw.drop 22).take 4)
            block_pointers := blockPointers
            size := leNat ((raw.drop 66).take 4)
            id_count := leNat ((raw.drop 74).take 2)
            access_rights := (raw.drop 76).take 9
            parent := leNat ((raw.drop 85).take 2) }

/-- The `RMXVolumeInformation` namedtuple (format `<10sxBHIHIHH100x` at
byte offset 384). Only the fields later computations use are relevant. -/
structure RMXVolumeInformation where
  name : String
  file_driver : Nat
  block_size : Nat
  volume_size : Nat
  num_fnodes : Nat
  fnode_start : Nat
  fnode_size : Nat
  root_fnode : Nat
deriving DecidableEq

/-- The loop body of `FileSystem._read_fnode_file`: decode fnodes
`0, …, k-1` from `raw`, keeping id `i` exactly when its flags satisfy
`allocated and not deleted`; any decoding exception aborts the mount
(`none`). -/
def buildFnodeMap (st : FileState) (fnodeSize : Nat) (raw : List Nat) :
    Nat → Option (List (Nat × FileNode))
  | 0 => some []
  | k + 1 =>
    match buildFnodeMap st fnodeSize raw k,
        readFnode st fnodeSize ((raw.drop (k * fnodeSize)).take fnodeSize) with
    | some m, some fnode =>
      some (if fnode.flags.allocated && !fnode.flags.deleted then m ++ [(k, fnode)] else m)
    | _, _ => none

/-- `FileSystem._read_fnode_file`: read `num_fnodes * fnode_size` bytes
starting at byte offset `fnode_start` (the field's raw value) and decode
consecutive `fnode_size`-byte slices, the slice index being the node id. -/
def readFnodeFile (st : FileState) (vol : RMXVolumeInformation) :
    Option (List (Nat × FileNode)) :=
  buildFnodeMap st vol.fnode_size
    (readWithoutPositionChange st vol.fnode_start (vol.num_fnodes * vol.fnode_size)).1
    vol.num_fnodes

/-- Modelled from the spec (claim C4's reading of §3/§4.3): as
`readFnodeFile`, but with the node table located at the position named
by `fnode_start` taken as a block number, i.e. byte offset
`fnode_start * block_size`. -/
def readFnodeFileSpec (st : FileState) (vol : RMXVolumeInformation) :
    Option (List (Nat × FileNode)) :=
  buildFnodeMap st vol.fnode_size
    (readWithoutPositionChange st (vol.fnode_start * vol.block_size)
      (vol.num_fnodes * vol.fnode_size)).1
    vol.num_fnodes

/-- The Python exceptions the decoding paths can raise. `notFound`
carries the message path of the source's
`IOError('No such file or directory: …')`. -/
inductive PyError
  | keyError (key : Nat)
  | structError
  | assertError
  | notFound (path : String)
deriving DecidableEq

/-- Lookup in the session's `_fnodes` dictionary. -/
def lookupFnode (m : List (Nat × FileNode)) (k : Nat) : Option FileNode :=
  (m.find? (fun p => p.1 == k)).map (fun p => p.2)

/-- A Python `dict` from decoded names (kept as their byte lists) to file
nodes, in insertion order. -/
abbrev Dict := List (List Nat × FileNode)

/-- Python `d[k]`. -/
def dictLookup (d : Dict) (k : List Nat) : Option FileNode :=
  (d.find? (fun p => p.1 == k)).map (fun p => p.2)

/-- Python `d[k] = v`: overwrite in place if the key exists, else append. -/
def dictInsert (d : Dict) (k : List Nat) (v : FileNode) : Dict :=
  if d.any (fun p => p.1 == k) then
    d.map (fun p => if p.1 == k then (k, v) else p)
  else d ++ [(k, v)]

/-- Python `name.strip(b'\x00')`: NUL bytes are removed from both ends. -/
def stripNul (bs : List Nat) : List Nat :=
  ((bs.dropWhile (fun b => b == 0)).reverse.dropWhile (fun b => b == 0)).reverse

/-- Modelled from the spec (claim C8's reading of §4.5): only trailing
NUL bytes are stripped from a name. -/
def stripTrailingNul (bs : List Nat) : List Nat :=
  (bs.reverse.dropWhile (fun b => b == 0)).reverse

/-- One iteration of the `FileSystem._read_directory` loop on a 16-byte
slice (format `H14s`, little-endian host). In source order: a short
slice is a `struct.error` (uncaught); a name of 14 fill bytes `b'@'` is
skipped; a name that does not decode as ASCII is a `UnicodeDecodeError`,
caught by the handler (warning logged, entry skipped); a node id missing
from `_fnodes` is a `KeyError`, which the handler does not catch; a node
of type other than directory/data is skipped without a warning. -/
def dirStep (fnodes : List (Nat × FileNode)) (acc : Dict) (slice : List Nat) :
    Except PyError Dict :=
  if slice.length ≠ 16 then .error .structError
  else
    let fid := leNat (slice.take 2)
    let nameBytes := slice.drop 2
    if nameBytes == List.replicate 14 64 then .ok acc
    else
      let stripped := stripNul nameBytes
      if stripped.all (fun b => decide (b < 128)) then
        match lookupFnode fnodes fid with
        | none => .error (.keyError fid)
        | some node =>
          if node.type == FileType.directory || node.type == FileType.data then
            .ok (dictInsert acc stripped node)
          else .ok acc
      else .ok acc

/-- Modelled from the spec (claim C8): as `dirStep` but stripping only
trailing NUL bytes from the name. -/
def dirStepSpec (fnodes : List (Nat × FileNode)) (acc : Dict) (slice : List Nat) :
    Except PyError Dict :=
  if slice.length ≠ 16 then .error .structError
  else
    let fid := leNat (slice.take 2)
    let nameBytes := slice.drop 2
    if nameBytes == List.replicate 14 64 then .ok acc
    else
      let stripped := stripTrailingNul nameBytes
      if stripped.all (fun b => decide (b < 128)) then
        match lookupFnode fnodes fid with
        | none => .error (.keyError fid)
        | some node =>
          if node.type == FileType.directory || node.type == FileType.data then
            .ok (dictInsert acc stripped node)
          else .ok acc
      else .ok acc

/-- Process the first `k` 16-byte records of `data` in order. -/
def readDirectoryRecords (fnodes : List (Nat × FileNode)) (data : List Nat) :
    Nat → Except PyError Dict
  | 0 => .ok []
  | k + 1 =>
    match readDirectoryRecords fnodes data k with
    | .error e => .error e
    | .ok acc => dirStep fnodes acc ((data.drop (16 * k)).take 16)

/-- The record loop of `FileSystem._read_directory`: one iteration per
`range(0, len(data), 16)` element. -/
def readDirectoryData (fnodes : List (Nat × FileNode)) (data : List Nat) :
    Except PyError Dict :=
  readDirectoryRecords fnodes data ((data.length + 15) / 16)

/-- Modelled from the spec (claim C8): `readDirectoryData` with only
trailing NULs stripped from names. -/
def readDirectoryRecordsSpec (fnodes : List (Nat × FileNode)) (data : List Nat) :
    Nat → Except PyError Dict
  | 0 => .ok []
  | k + 1 =>
    match readDirectoryRecordsSpec fnodes data k with
    | .error e => .error e
    | .ok acc => dirStepSpec fnodes acc ((data.drop (16 * k)).take 16)

/-- Modelled from the spec (claim C8): the directory record loop with
only trailing NULs stripped from names. -/
def readDirectoryDataSpec (fnodes : List (Nat × FileNode)) (data : List Nat) :
    Except PyError Dict :=
  readDirectoryRecordsSpec fnodes data ((data.length + 15) / 16)

/-- The filesystem session after mount: the image, the block size from
the volume information, the node map and the root node. -/
structure FS where
  st : FileState
  blockSize : Nat
  fnodes : List (Nat × FileNode)
  root : FileNode
deriving DecidableEq

/-- `FileSystem._read_blocks`: block numbers are scaled by the block
size here (unlike `_parse_indirect_blocks`). -/
def readBlocks (fs : FS) (numBlocks firstBlock : Nat) : List Nat :=
  (readWithoutPositionChange fs.st (firstBlock * fs.blockSize)
    (numBlocks * fs.blockSize)).1

/-- `FileSystem._gather_blocks`: concatenate the ranges in pointer order. -/
def gatherBlocks (fs : FS) (pointers : List BlockPointer) : List Nat :=
  pointers.foldl (fun acc p => acc ++ readBlocks fs p.num_blocks p.first_block) []

/-- `FileSystem._read_directory`: assert the node is a directory, gather
its content, decode the records. -/
def readDirectory (fs : FS) (fnode : FileNode) : Except PyError Dict :=
  if fnode.type ≠ FileType.directory then .error .assertError
  else readDirectoryData fs.fnodes (gatherBlocks fs fnode.block_pointers)

/-- Python `str.split(sep)` for a one-character separator, on the
character list of the string. -/
def splitChars (sep : Char) : List Char → List (List Char)
  | [] => [[]]
  | c :: cs =>
    if c == sep then [] :: splitChars sep cs
    else
      match splitChars sep cs with
      | [] => [[c]]
      | g :: gs => (c :: g) :: gs

/-- The byte list a path segment compares equal to as a dictionary key. -/
def segKey (seg : List Char) : List Nat := seg.map Char.toNat

/-- One iteration of the `for d in dirs` loop of
`FileSystem._path_to_fnode`: the `try` block spans both the dictionary
lookup and `_read_directory`, so a `KeyError` raised by either becomes
`IOError('No such file or directory: ' + path)`. -/
def stepDir (fs : FS) (path : String) (cd : Dict) (d : List Char) :
    Except PyError (Dict × FileNode) :=
  match dictLookup cd (segKey d) with
  | none => .error (.notFound path)
  | some node =>
    match readDirectory fs node with
    | .error (.keyError _) => .error (.notFound path)
    | .error e => .error e
    | .ok dict => .ok (dict, node)

/-- The `for d in dirs` loop, threading the current directory dictionary
and the current node. -/
def resolveLoop (fs : FS) (path : String) (dirs : List (List Char))
    (cd : Dict) (cn : FileNode) : Except PyError (Dict × FileNode) :=
  match dirs with
  | [] => .ok (cd, cn)
  | d :: rest =>
    match stepDir fs path cd d with
    | .error e => .error e
    | .ok r => resolveLoop fs path rest r.1 r.2

/-- `FileSystem._path_to_fnode` on an absolute path: split on `/`, drop
the empty leading segment, walk the intermediate segments, then look up
the final segment if it is non-empty, else return the last node reached.
The initial `_read_directory(self._root)` is outside any handler. -/
def pathToFnode (fs : FS) (path : String) : Except PyError FileNode :=
  let segs := (splitChars '/' path.data).drop 1
  let dirs := segs.dropLast
  let filename := segs.getLastD []
  match readDirectory fs fs.root with
  | .error e => .error e
  | .ok rootDir =>
    match resolveLoop fs path dirs rootDir fs.root with
    | .error e => .error e
    | .ok r =>
      if filename.isEmpty then .ok r.2
      else
        match dictLookup r.1 (segKey filename) with
        | none => .error (.notFound path)
        | some node => .ok node

/-- The timestamp fields a `File` or `Directory` handle exposes. -/
structure Handle where
  fnode : FileNode
  creation_time : Nat
  modification_time : Nat
  access_time : Nat
deriving DecidableEq

/-- `File.__init__`: resolve the path, assert the node is data, then set
`creation_time`, `modification_time` (from the node's creation time) and
`access_time`. -/
def mkFile (fs : FS) (abspath : String) : Except PyError Handle :=
  match pathToFnode fs abspath with
  | .error e => .error e
  | .ok fnode =>
    if fnode.type ≠ FileType.data then .error .assertError
    else .ok ⟨fnode, fnode.creation_time, fnode.creation_time, fnode.access_time⟩

/-- `Directory.__init__`: as `mkFile` with the directory assertion. -/
def mkDirectory (fs : FS) (abspath : String) : Except PyError Handle :=
  match pathToFnode fs abspath with
  | .error e => .error e
  | .ok fnode =>
    if fnode.type ≠ FileType.directory then .error .assertError
    else .ok ⟨fnode, fnode.creation_time, fnode.creation_time, fnode.access_time⟩

/-- The `(atime, mtime)` pair `main` passes to `os.utime` for an
extracted file. -/
def utimeArgs (f : Handle) : Nat × Nat := (f.access_time, f.modification_time)

/-! ### Concrete fixtures

A small synthetic session: the root directory contains a directory `A`
(node 1) which contains a data file `C` (node 2); the image holds the
two 16-byte directory records. Further fixtures exercise the node-table
loader and the indirect-pointer decoder on concrete bytes. -/

/-- The data node of the synthetic session (node id 2, name `C`). Its
creation, access and modification seconds are 5, 7 and 9. -/
def node2W : FileNode :=
  { flags := ⟨true, false, false, false⟩, type := .data, granularity := 0, owner := 0,
    creation_time := 5, access_time := 7, modification_time := 9, total_size := 0,
    total_blocks := 0, block_pointers := [], size := 0, id_count := 0,
    access_rights := [], parent := 0 }

/-- The directory node `A` (node id 1): one block pointer to block 1. -/
def node1W : FileNode :=
  { node2W with type := .directory, block_pointers := [⟨1, 1⟩] }

/-- The root directory node: one block pointer to block 0. -/
def rootW : FileNode :=
  { node2W with type := .directory, block_pointers := [⟨1, 0⟩] }

/-- The synthetic image: two 16-byte directory records, record 0 naming
node 1 as `A`, record 1 naming node 2 as `C`. -/
def imgW : List Nat :=
  [1, 0, 65] ++ List.replicate 13 0 ++ [2, 0, 67] ++ List.replicate 13 0

/-- The synthetic session, with block size 16 so each record is a block. -/
def fsW : FS := ⟨⟨imgW, 0⟩, 16, [(0, rootW), (1, node1W), (2, node2W)], rootW⟩

/-- An image for the indirect-pointer decoder: a pad byte, then a 4-byte
indirect record `(count 5, address 2)` at byte offset 1, then one byte. -/
def stC1 : FileState := ⟨[99, 5, 2, 0, 0, 7], 0⟩

/-- An 87-byte fnode record with flags 3 (allocated and long), type 8
(data), and inline pointer slot 0 holding `(count 1, address 1)`. -/
def rawC1 : List Nat :=
  [3, 0, 8, 0] ++ List.replicate 22 0 ++
    ([1, 0, 1, 0, 0] ++ List.replicate 35 0) ++ List.replicate 21 0

/-- The node `readFnode` decodes from `rawC1` against `stC1`. -/
def nodeC1 : FileNode :=
  { flags := ⟨true, true, false, false⟩, type := .data, granularity := 0, owner := 0,
    creation_time := 0, access_time := 0, modification_time := 0, total_size := 0,
    total_blocks := 0, block_pointers := [⟨5, 2⟩], size := 0, id_count := 0,
    access_rights := List.replicate 9 0, parent := 0 }

/-- An 87-byte image holding one fnode record: flags 1 (allocated),
type 8 (data), everything else zero. -/
def img87 : List Nat := [1, 0, 8] ++ List.replicate 84 0

/-- The node decoded from `img87`. -/
def nodeM : FileNode :=
  { flags := ⟨true, false, false, false⟩, type := .data, granularity := 0, owner := 0,
    creation_time := 0, access_time := 0, modification_time := 0, total_size := 0,
    total_blocks := 0, block_pointers := [], size := 0, id_count := 0,
    access_rights := List.replicate 9 0, parent := 0 }

/-- Volume information for mounting `img87`: one fnode of size 87 at
byte offset 0. -/
def volM : RMXVolumeInformation := ⟨"", 0, 16, 0, 1, 0, 87, 0⟩

/-- Volume information with `fnode_start = 1` and `block_size = 2`. -/
def volC4 : RMXVolumeInformation := ⟨"", 0, 2, 0, 1, 1, 87, 0⟩

/-- An image holding a pad byte and then the record of `img87`, so the
node table lies at byte offset 1, not at byte offset `1 * block_size`. -/
def imgC4 : List Nat := 0 :: img87

/-- Directory content whose first record names the absent node id 5 and
whose second record is a valid entry `C` for node 2. -/
def dataC2 : List Nat :=
  [5, 0, 88] ++ List.replicate 13 0 ++ [2, 0, 67] ++ List.replicate 13 0

/-- Directory content with one record for node 2 whose 14-byte name
field starts with a NUL byte: `[0, 65] ++ 12 zeros`. -/
def dataC8 : List Nat := [2, 0, 0, 65] ++ List.replicate 12 0

/-! ### Helper lemmas -/

theorem fileState_eta (s : FileState) : (⟨s.data, s.pos⟩ : FileState) = s := rfl

theorem readWithoutPositionChange_fst (s : FileState) (start numBytes : Nat) :
    (readWithoutPositionChange s start numBytes).1 = (s.data.drop start).take numBytes := rfl

theorem readWithoutPositionChange_snd (s : FileState) (start numBytes : Nat) :
    (readWithoutPositionChange s start numBytes).2 = s := rfl

/-- Membership in the map built by the `_read_fnode_file` loop: node id
`id` maps to `n` exactly when `id` is in range, slice `id` decodes to
`n`, and `n` is allocated and not deleted. -/
theorem buildFnodeMap_mem (st : FileState) (s : Nat) (raw : List Nat) :
    ∀ (k : Nat) (m : List (Nat × FileNode)), buildFnodeMap st s raw k = some m →
      ∀ id n, ((id, n) ∈ m ↔
        id < k ∧ readFnode st s ((raw.drop (id * s)).take s) = some n ∧
          n.flags.allocated = true ∧ n.flags.deleted = false) := by
  intro k
  induction k with
  | zero =>
    intro m h id n
    cases h
    simp
  | succ k ih =>
    intro m h id n
    unfold buildFnodeMap at h
    cases hrec : buildFnodeMap st s raw k <;> rw [hrec] at h
    · cases h
    · rename_i m'
      cases hdec : readFnode st s ((raw.drop (k * s)).take s) <;> rw [hdec] at h
      · cases h
      · rename_i nk
        cases h
        have IH := ih m' hrec id n
        cases hb : (nk.flags.allocated && !nk.flags.deleted)
        · rw [if_neg (by decide : ¬ (false = true)), IH]
          constructor
          · rintro ⟨h1, h2, h3, h4⟩
            exact ⟨Nat.lt_succ_of_lt h1, h2, h3, h4⟩
          · rintro ⟨h1, h2, h3, h4⟩
            rcases Nat.lt_succ_iff_lt_or_eq.mp h1 with h1' | heq
            · exact ⟨h1', h2, h3, h4⟩
            · subst heq
              rw [hdec] at h2
              injection h2 with h2
              subst h2
              simp [h3, h4] at hb
        · rw [if_pos rfl, List.mem_append, List.mem_singleton, IH]
          constructor
          · rintro (⟨h1, h2, h3, h4⟩ | hpair)
            · exact ⟨Nat.lt_succ_of_lt h1, h2, h3, h4⟩
            · injection hpair with hk hn
              subst hk
              subst hn
              refine ⟨Nat.lt_succ_self id, hdec, ?_, ?_⟩
              · exact (Bool.and_eq_true .. ▸ hb).1
              · have h2 := (Bool.and_eq_true .. ▸ hb).2
                revert h2
                cases n.flags.deleted <;> simp
          · rintro ⟨h1, h2, h3, h4⟩
            rcases Nat.lt_succ_iff_lt_or_eq.mp h1 with h1' | heq
            · exact Or.inl ⟨h1', h2, h3, h4⟩
            · subst heq
              rw [hdec] at h2
              injection h2 with h2
              rw [h2]
              exact Or.inr rfl

/-- Slicing the `take`/`drop` window read by the node-table loader is
slicing the image itself, for in-range slice indices. -/
theorem slice_of_read (data : List Nat) (start s num id : Nat) (h : id < num) :
    (((data.drop start).take (num * s)).drop (id * s)).take s =
      (data.drop (start + id * s)).take s := by
  rw [List.drop_take, List.drop_drop, List.take_take]
  have hs : id * s + s ≤ num * s := by
    have h' := Nat.mul_le_mul_right s (Nat.succ_le_of_lt h)
    rw [Nat.succ_mul] at h'
    exact h'
  rw [Nat.min_eq_left (by omega)]

/-! ### Claim theorems -/

/-- Claim C3, counterexample: on a 4-byte image, `read_at(2, 10)` asks
for a range past the image bounds; the source returns normally with only
2 bytes instead of failing with an I/O error, so the claim that it
returns exactly `length` bytes and errors on an out-of-bounds range is
false. -/
theorem c3_counterexample :
    ¬ ((readWithoutPositionChange ⟨List.replicate 4 7, 0⟩ 2 10).1.length = 10) := by
  decide

/-- Claim C3, amended: `read_at(offset, length)` always restores the
handle state, returns the image bytes of `[offset, offset+length)`
truncated at the end of the image, and in particular returns exactly
`length` bytes whenever the requested range lies within the image
bounds; an out-of-bounds range yields a short (possibly empty) result,
not an I/O error. -/
theorem c3_read_at (s : FileState) (start numBytes : Nat) :
    (readWithoutPositionChange s start numBytes).2 = s ∧
    (readWithoutPositionChange s start numBytes).1 = (s.data.drop start).take numBytes ∧
    (start + numBytes ≤ s.data.length →
      (readWithoutPositionChange s start numBytes).1.length = numBytes) := by
  refine ⟨rfl, rfl, fun h => ?_⟩
  rw [readWithoutPositionChange_fst, List.length_take, List.length_drop]
  omega

/-- Witness for C3 at a concrete in-bounds read. -/
theorem c3_read_at_witness :
    (readWithoutPositionChange ⟨[7, 7, 7, 7], 0⟩ 1 2).2 = ⟨[7, 7, 7, 7], 0⟩ ∧
    (readWithoutPositionChange ⟨[7, 7, 7, 7], 0⟩ 1 2).1.length = 2 :=
  ⟨(c3_read_at ⟨[7, 7, 7, 7], 0⟩ 1 2).1, (c3_read_at ⟨[7, 7, 7, 7], 0⟩ 1 2).2.2 (by decide)⟩

/-- Claim C9: the 24-bit decoder appends a zero high byte and decodes
little-endian; `[1, 2, 3]` decodes to `0x030201`, and in general three
bytes decode to `b0 + 256 * b1 + 65536 * b2`. -/
theorem c9_read24 :
    read24bitInteger [1, 2, 3] = 0x030201 ∧
    ∀ b0 b1 b2 : Nat, read24bitInteger [b0, b1, b2] = b0 + 256 * b1 + 65536 * b2 := by
  refine ⟨by decide, fun b0 b1 b2 => ?_⟩
  simp [read24bitInteger, leNat]
  ring

/-- Claim C2, code bug: a directory record naming a node id (here 5)
absent from the session's node map raises `KeyError` — the handler
catches only `IndexError` and `UnicodeDecodeError` — so decoding aborts
instead of skipping the record with a warning, and the valid record that
follows (which decodes fine on its own) is lost. -/
theorem c2_missing_id_raises :
    readDirectoryData [(2, node2W)] dataC2 = Except.error (PyError.keyError 5) ∧
    readDirectoryData [(2, node2W)] (dataC2.drop 16) = Except.ok [([67], node2W)] := by
  decide

/-- Claim C10: a `File` or `Directory` handle exposes the underlying
node's creation time as its `modification_time` (not the node's
`modification_time` field) and the node's access time as `access_time`,
and the extraction command therefore passes the node's creation time to
`os.utime` as the written file's modification timestamp. -/
theorem c10_times (fs : FS) (path : String) :
    (∀ f, mkFile fs path = Except.ok f →
      f.modification_time = f.fnode.creation_time ∧
      f.access_time = f.fnode.access_time ∧
      utimeArgs f = (f.fnode.access_time, f.fnode.creation_time)) ∧
    (∀ d, mkDirectory fs path = Except.ok d →
      d.modification_time = d.fnode.creation_time ∧
      d.access_time = d.fnode.access_time) := by
  constructor
  · intro f hf
    unfold mkFile at hf
    cases h : pathToFnode fs path <;> rw [h] at hf
    · cases hf
    · rename_i fnode
      dsimp only at hf
      by_cases ht : fnode.type ≠ FileType.data
      · rw [if_pos ht] at hf; cases hf
      · rw [if_neg ht] at hf
        cases hf
        exact ⟨rfl, rfl, rfl⟩
  · intro d hd
    unfold mkDirectory at hd
    cases h : pathToFnode fs path <;> rw [h] at hd
    · cases hd
    · rename_i fnode
      dsimp only at hd
      by_cases ht : fnode.type ≠ FileType.directory
      · rw [if_pos ht] at hd; cases hd
      · rw [if_neg ht] at hd
        cases hd
        exact ⟨rfl, rfl⟩

/-- Witness for C10: the extracted timestamps of the file `/A/C` of the
synthetic session are `(access 7, creation 5)`, while the node's own
modification second is 9. -/
theorem c10_times_witness :
    utimeArgs ⟨node2W, 5, 5, 7⟩ = (node2W.access_time, node2W.creation_time) ∧
    node2W.modification_time ≠ node2W.creation_time :=
  ⟨((c10_times fsW "/A/C").1 ⟨node2W, 5, 5, 7⟩ (by decide)).2.2, by decide⟩

end Irmx86

namespace Irmx86

/-- Claim C5: after mount, the node map contains the pair `(id, n)`
exactly when `id` is a valid slice index of the node table, the slice
decodes to `n`, and `n`'s flags are allocated and not deleted; every
unallocated or deleted node is absent from the map. -/
theorem c5_node_map (st : FileState) (vol : RMXVolumeInformation)
    (m : List (Nat × FileNode)) (h : readFnodeFile st vol = some m) :
    ∀ id n, ((id, n) ∈ m ↔
      id < vol.num_fnodes ∧
      readFnode st vol.fnode_size
        ((((readWithoutPositionChange st vol.fnode_start
            (vol.num_fnodes * vol.fnode_size)).1).drop (id * vol.fnode_size)).take
          vol.fnode_size) = some n ∧
      n.flags.allocated = true ∧ n.flags.deleted = false) :=
  buildFnodeMap_mem st vol.fnode_size _ vol.num_fnodes m h

/-- Witness for C5: mounting `img87` yields exactly the map
`[(0, nodeM)]`, and the allocated, non-deleted `nodeM` is in it. -/
theorem c5_node_map_witness :
    ∃ m, readFnodeFile ⟨img87, 0⟩ volM = some m ∧ (0, nodeM) ∈ m :=
  ⟨[(0, nodeM)], by decide,
    (c5_node_map ⟨img87, 0⟩ volM [(0, nodeM)] (by decide) 0 nodeM).mpr
      ⟨by decide, by decide, by decide, by decide⟩⟩

/-- Claim C4, counterexample: with `fnode_start = 1` and
`block_size = 2`, the loader decodes the node table from byte offset 1
(the field's raw value), while reading from the block-scaled position
`1 * block_size = 2` fails on the same image, so the claim that the
table is read from the position named by a block number is false. -/
theorem c4_counterexample :
    readFnodeFile ⟨imgC4, 0⟩ volC4 = some [(0, nodeM)] ∧
    readFnodeFileSpec ⟨imgC4, 0⟩ volC4 = none := by
  decide

/-- Claim C4, amended: the node table loader reads
`num_fnodes * fnode_size` bytes starting at byte offset `fnode_start`
taken as a raw byte offset (not scaled by the block size), and each map
entry `(id, n)` comes from decoding the `fnode_size`-byte slice of the
image at byte offset `fnode_start + id * fnode_size`, the slice index
being the node id. -/
theorem c4_node_table (st : FileState) (vol : RMXVolumeInformation)
    (m : List (Nat × FileNode)) (h : readFnodeFile st vol = some m) :
    ∀ id n, (id, n) ∈ m →
      id < vol.num_fnodes ∧
      readFnode st vol.fnode_size
        ((st.data.drop (vol.fnode_start + id * vol.fnode_size)).take vol.fnode_size) =
        some n := by
  intro id n hm
  have H := (buildFnodeMap_mem st vol.fnode_size _ vol.num_fnodes m h id n).mp hm
  refine ⟨H.1, ?_⟩
  have h2 := H.2.1
  rwa [readWithoutPositionChange_fst,
    slice_of_read st.data vol.fnode_start vol.fnode_size vol.num_fnodes id H.1] at h2

/-- Witness for C4 at the concrete mounted image `imgC4`. -/
theorem c4_node_table_witness :
    readFnode ⟨imgC4, 0⟩ 87 ((imgC4.drop (1 + 0 * 87)).take 87) = some nodeM :=
  (c4_node_table ⟨imgC4, 0⟩ volC4 [(0, nodeM)] (by decide) 0 nodeM (by decide)).2

end Irmx86

namespace Irmx86

/-- Claim C1, counterexample: for the long-file node `rawC1`, whose
inline slot 0 is `(count 1, first_block 1)`, the decoder expands the
indirect region from byte offset 1 and yields `[(5, 2)]`; reading at the
block-scaled offset `1 * 2` (block size 2) would yield the different
list `[(2, 0x070000)]`, so the claim that the indirect region lies at
byte offset `first_block * block_size` is false. -/
theorem c1_counterexample :
    readFnode stC1 87 rawC1 = some nodeC1 ∧
    nodeC1.block_pointers = [⟨5, 2⟩] ∧
    parseIndirectBlocksSpec 2 stC1 1 1 = some [⟨2, 458752⟩] ∧
    ([(⟨5, 2⟩ : BlockPointer)] ≠ [⟨2, 458752⟩]) := by
  decide

/-- Claim C1, amended: for every node whose flags have `long_file` set,
each inline `(count, first_block)` pointer with `count ≠ 0` is expanded
by reading `count` 4-byte records `(count:8, address:24)` from the
indirect region at byte offset `first_block` (the raw 24-bit address,
not scaled by the block size); the decoded records of all inline slots
are concatenated in slot order, with no third level of indirection. -/
theorem c1_long_file (st : FileState) (fnodeSize : Nat) (raw : List Nat) (n : FileNode)
    (h : readFnode st fnodeSize raw = some n)
    (hlong : (parseFlags (leNat (raw.take 2))).long_file = true) :
    ∃ ls, (parsePointerData ((raw.drop 26).take 40)).mapM
        (fun p => parseIndirectBlocks st p.num_blocks p.first_block) = some ls ∧
      n.block_pointers = ls.flatten := by
  unfold readFnode at h
  by_cases h87 : fnodeSize < 87
  · rw [if_pos h87] at h; cases h
  · rw [if_neg h87] at h
    by_cases hlen : raw.length ≠ fnodeSize
    · rw [if_pos hlen] at h; cases h
    · rw [if_neg hlen] at h
      dsimp only at h
      cases hft : filetypeOf (raw.getD 2 0) <;> rw [hft] at h
      · cases h
      · dsimp only at h
        rw [hlong] at h
        rw [if_pos rfl] at h
        cases hE : (parsePointerData ((raw.drop 26).take 40)).mapM
            (fun p => parseIndirectBlocks st p.num_blocks p.first_block) <;>
          rw [hE] at h
        · cases h
        · rename_i ls
          dsimp only [Option.map] at h
          cases h
          exact ⟨ls, rfl, rfl⟩

/-- Witness for C1 at the concrete long-file node `rawC1`. -/
theorem c1_long_file_witness :
    ∃ ls, (parsePointerData ((rawC1.drop 26).take 40)).mapM
        (fun p => parseIndirectBlocks stC1 p.num_blocks p.first_block) = some ls ∧
      nodeC1.block_pointers = ls.flatten :=
  c1_long_file stC1 87 rawC1 nodeC1 (by decide) (by decide)

end Irmx86

namespace Irmx86

/-- Dropping leading elements that are all zero stops at a first
element that is not zero. -/
theorem dropZeros_append (zs rest : List Nat) (hzs : ∀ b ∈ zs, b = 0)
    (hrest : rest.head? ≠ some 0) :
    (zs ++ rest).dropWhile (fun b => b == 0) = rest := by
  induction zs with
  | nil =>
    simp only [List.nil_append]
    cases rest with
    | nil => rfl
    | cons c cs =>
      have hc : ¬ ((c == 0) = true) := by
        intro hc
        rw [beq_iff_eq] at hc
        exact hrest (by rw [hc]; rfl)
      rw [List.dropWhile_cons, if_neg hc]
  | cons z zs ih =>
    have hz : z = 0 := hzs z (by simp)
    subst hz
    rw [List.cons_append, List.dropWhile_cons, if_pos (by decide)]
    exact ih (fun b hb => hzs b (by simp [hb]))

/-- `strip(b'\x00')` on a name of the shape
`zero-run ++ core ++ zero-run`, where `core` neither starts nor ends in
a zero byte, returns exactly `core`. -/
theorem stripNul_append (zl core zr : List Nat)
    (hzl : ∀ b ∈ zl, b = 0) (hzr : ∀ b ∈ zr, b = 0)
    (hne : core ≠ []) (hhead : core.head? ≠ some 0) (hlast : core.getLast? ≠ some 0) :
    stripNul (zl ++ core ++ zr) = core := by
  unfold stripNul
  rw [List.append_assoc,
    dropZeros_append zl (core ++ zr) hzl (by
      cases core with
      | nil => exact absurd rfl hne
      | cons c cs => simpa using hhead),
    List.reverse_append,
    dropZeros_append zr.reverse core.reverse
      (fun b hb => hzr b (List.mem_reverse.mp hb))
      (by rw [List.head?_reverse]; exact hlast),
    List.reverse_reverse]

/-- Looking up a key in a dictionary skips an entry with another key. -/
theorem dictLookup_cons_of_ne (p : List Nat × FileNode) (l : Dict) (k : List Nat)
    (hp : (p.1 == k) = false) : dictLookup (p :: l) k = dictLookup l k := by
  simp [dictLookup, List.find?, hp]

/-- Python dict semantics of `d[k] = v`: a later assignment wins. -/
theorem dictLookup_dictInsert (d : Dict) (k : List Nat) (v : FileNode) :
    dictLookup (dictInsert d k v) k = some v := by
  induction d with
  | nil => simp [dictInsert, dictLookup, List.find?]
  | cons p rest ih =>
    by_cases hp : (p.1 == k) = true
    · simp only [dictInsert, List.any_cons, hp, Bool.true_or, if_pos, List.map_cons,
        if_pos rfl]
      simp [dictLookup, List.find?]
    · rw [Bool.not_eq_true] at hp
      by_cases ha : rest.any (fun q => q.1 == k) = true
      · simp only [dictInsert, List.any_cons, hp, Bool.false_or, ha, if_pos,
          List.map_cons] at ih ⊢
        rw [if_neg Bool.false_ne_true]
        rw [dictLookup_cons_of_ne p _ k hp]
        exact ih
      · rw [Bool.not_eq_true] at ha
        simp only [dictInsert, List.any_cons, hp, Bool.false_or, ha,
          if_neg Bool.false_ne_true, List.cons_append] at ih ⊢
        rw [dictLookup_cons_of_ne p _ k hp]
        exact ih

end Irmx86

namespace Irmx86

/-- Claim C8, counterexample: a kept record whose 14-byte name field is
`[0, 65] ++ 12 zeros` is entered under the name `[65]` — the source's
`strip(b'\x00')` removes the leading NUL as well — while stripping only
trailing NULs as the claim states would keep the name `[0, 65]`. -/
theorem c8_counterexample :
    readDirectoryData [(2, node2W)] dataC8 = Except.ok [([65], node2W)] ∧
    readDirectoryDataSpec [(2, node2W)] dataC8 = Except.ok [([0, 65], node2W)] ∧
    (([65] : List Nat) ≠ [0, 65]) := by
  decide

/-- Taking the first two bytes of a 16-byte record. -/
theorem take_two (b0 b1 : Nat) (l : List Nat) : (b0 :: b1 :: l).take 2 = [b0, b1] := rfl

/-- Dropping the two node-id bytes of a 16-byte record. -/
theorem drop_two (b0 b1 : Nat) (l : List Nat) : (b0 :: b1 :: l).drop 2 = l := rfl

/-- Claim C8, amended: a record whose name field is 14 fill bytes `@` is
skipped as a free slot; a kept record's name is its name field with NUL
bytes stripped from both ends (leading as well as trailing); and a
duplicate name overwrites the earlier mapping, last record wins. -/
theorem c8_directory_records (fnodes : List (Nat × FileNode)) :
    (∀ acc b0 b1, dirStep fnodes acc (b0 :: b1 :: List.replicate 14 64) = .ok acc) ∧
    (∀ acc b0 b1 zl core zr node,
      (∀ b ∈ zl, b = 0) → (∀ b ∈ zr, b = 0) →
      core ≠ [] → core.head? ≠ some 0 → core.getLast? ≠ some 0 →
      zl.length + core.length + zr.length = 14 →
      zl ++ core ++ zr ≠ List.replicate 14 64 →
      core.all (fun b => decide (b < 128)) = true →
      lookupFnode fnodes (b0 + 256 * b1) = some node →
      (node.type = FileType.directory ∨ node.type = FileType.data) →
      dirStep fnodes acc (b0 :: b1 :: (zl ++ core ++ zr)) =
        .ok (dictInsert acc core node)) ∧
    (∀ d k v, dictLookup (dictInsert d k v) k = some v) := by
  refine ⟨fun acc b0 b1 => rfl, ?_, fun d k v => dictLookup_dictInsert d k v⟩
  intro acc b0 b1 zl core zr node hzl hzr hne hhead hlast hlen hfill hascii hlook htype
  unfold dirStep
  rw [if_neg (by
    simp only [List.length_cons, List.length_append]
    omega)]
  dsimp only
  rw [drop_two, take_two]
  rw [if_neg (by
    rw [beq_iff_eq]
    exact hfill)]
  rw [stripNul_append zl core zr hzl hzr hne hhead hlast]
  rw [hascii, if_pos rfl]
  rw [show leNat [b0, b1] = b0 + 256 * b1 from by simp [leNat]]
  rw [hlook]
  dsimp only
  rw [if_pos (by rcases htype with h | h <;> simp [h])]

/-- Witness for C8: the record `[2, 0] ++ [0] ++ [65] ++ 12 zeros` of the
synthetic session is entered under the both-ends-stripped name `[65]`,
and re-inserting `[65]` overwrites the earlier node. -/
theorem c8_directory_records_witness :
    dirStep [(2, node2W)] [] (2 :: 0 :: ([0] ++ [65] ++ List.replicate 12 0)) =
      Except.ok (dictInsert [] [65] node2W) ∧
    dictLookup (dictInsert [([65], node1W)] [65] node2W) [65] = some node2W :=
  ⟨(c8_directory_records [(2, node2W)]).2.1 [] 2 0 [0] [65] (List.replicate 12 0) node2W
      (by decide) (by decide) (by decide) (by decide) (by decide) (by decide)
      (by decide) (by decide) (by decide) (Or.inr rfl),
    (c8_directory_records [(2, node2W)]).2.2 [([65], node1W)] [65] node2W⟩

end Irmx86

namespace Irmx86

/-- `resolveLoop` on an empty segment list. -/
theorem resolveLoop_nil (fs : FS) (path : String) (cd : Dict) (cn : FileNode) :
    resolveLoop fs path [] cd cn = .ok (cd, cn) := rfl

/-- `resolveLoop` on a cons: one `stepDir`, then the rest. -/
theorem resolveLoop_cons (fs : FS) (path : String) (d : List Char)
    (rest : List (List Char)) (cd : Dict) (cn : FileNode) :
    resolveLoop fs path (d :: rest) cd cn =
      match stepDir fs path cd d with
      | .error e => .error e
      | .ok r => resolveLoop fs path rest r.1 r.2 := rfl

/-- A directory-record step never produces a not-found error. -/
theorem dirStep_ne_notFound (fnodes : List (Nat × FileNode)) (acc : Dict)
    (slice : List Nat) (q : String) :
    dirStep fnodes acc slice ≠ .error (.notFound q) := by
  unfold dirStep
  by_cases h16 : slice.length ≠ 16
  · rw [if_pos h16]; intro h; cases h
  · rw [if_neg h16]
    dsimp only
    by_cases hfill : ((slice.drop 2) == List.replicate 14 64) = true
    · rw [if_pos hfill]; intro h; cases h
    · rw [if_neg hfill]
      by_cases hascii : ((stripNul (slice.drop 2)).all fun b => decide (b < 128)) = true
      · rw [if_pos hascii]
        cases hl : lookupFnode fnodes (leNat (slice.take 2))
        · intro h; cases h
        · rename_i node
          dsimp only
          by_cases ht : (node.type == FileType.directory || node.type == FileType.data) = true
          · rw [if_pos ht]; intro h; cases h
          · rw [if_neg ht]; intro h; cases h
      · rw [if_neg hascii]; intro h; cases h

/-- The directory-record loop never produces a not-found error. -/
theorem readDirectoryRecords_ne_notFound (fnodes : List (Nat × FileNode))
    (data : List Nat) (k : Nat) (q : String) :
    readDirectoryRecords fnodes data k ≠ .error (.notFound q) := by
  induction k with
  | zero => intro h; cases h
  | succ k ih =>
    unfold readDirectoryRecords
    cases hr : readDirectoryRecords fnodes data k with
    | error e =>
      intro h
      injection h with h'
      exact ih (by rw [hr, h'])
    | ok acc => exact dirStep_ne_notFound fnodes acc _ q

/-- `_read_directory` never produces a not-found error. -/
theorem readDirectory_ne_notFound (fs : FS) (n : FileNode) (q : String) :
    readDirectory fs n ≠ .error (.notFound q) := by
  unfold readDirectory
  by_cases ht : n.type ≠ FileType.directory
  · rw [if_pos ht]; intro h; cases h
  · rw [if_neg ht]
    exact readDirectoryRecords_ne_notFound fs.fnodes _ _ q

/-- A not-found error from one resolution step names the resolved path. -/
theorem stepDir_notFound (fs : FS) (path : String) (cd : Dict) (d : List Char)
    (q : String) (h : stepDir fs path cd d = .error (.notFound q)) : q = path := by
  unfold stepDir at h
  cases hl : dictLookup cd (segKey d) <;> rw [hl] at h <;> dsimp only at h
  · injection h with h'
    injection h' with h''
    exact h''.symm
  · rename_i node
    cases hr : readDirectory fs node <;> rw [hr] at h
    · rename_i e
      cases e <;> dsimp only at h
      · injection h with h'
        injection h' with h''
        exact h''.symm
      · cases h
      · cases h
      · rename_i p'
        exact absurd hr (readDirectory_ne_notFound fs node p')
    · cases h

/-- A not-found error from the resolution loop names the resolved path. -/
theorem resolveLoop_notFound (fs : FS) (path : String) :
    ∀ (dirs : List (List Char)) (cd : Dict) (cn : FileNode) (q : String),
      resolveLoop fs path dirs cd cn = .error (.notFound q) → q = path := by
  intro dirs
  induction dirs with
  | nil => intro cd cn q h; cases h
  | cons d rest ih =>
    intro cd cn q h
    rw [resolveLoop_cons] at h
    cases hs : stepDir fs path cd d <;> rw [hs] at h
    · rename_i e
      injection h with h'
      rw [h'] at hs
      exact stepDir_notFound fs path cd d q hs
    · rename_i r
      exact ih r.1 r.2 q h

/-- The resolution loop splits over an append of segment lists. -/
theorem resolveLoop_append (fs : FS) (path : String) :
    ∀ (xs ys : List (List Char)) (cd : Dict) (cn : FileNode),
      resolveLoop fs path (xs ++ ys) cd cn =
        match resolveLoop fs path xs cd cn with
        | .error e => .error e
        | .ok r => resolveLoop fs path ys r.1 r.2 := by
  intro xs
  induction xs with
  | nil => intro ys cd cn; rfl
  | cons x xs ih =>
    intro ys cd cn
    rw [List.cons_append, resolveLoop_cons, resolveLoop_cons]
    cases hs : stepDir fs path cd x
    · rfl
    · rename_i r
      exact ih ys r.1 r.2

/-- A successful resolution step does not depend on the path string
(which is only used in error messages). -/
theorem stepDir_ok_path (fs : FS) (p1 p2 : String) (cd : Dict) (d : List Char)
    (r : Dict × FileNode) (h : stepDir fs p1 cd d = .ok r) :
    stepDir fs p2 cd d = .ok r := by
  unfold stepDir at h ⊢
  cases hl : dictLookup cd (segKey d) <;> rw [hl] at h <;> dsimp only at h ⊢
  · cases h
  · rename_i node
    cases hr : readDirectory fs node <;> rw [hr] at h
    · rename_i e
      cases e <;> cases h
    · exact h

/-- A successful resolution loop does not depend on the path string. -/
theorem resolveLoop_ok_path (fs : FS) (p1 p2 : String) :
    ∀ (dirs : List (List Char)) (cd : Dict) (cn : FileNode) (r : Dict × FileNode),
      resolveLoop fs p1 dirs cd cn = .ok r → resolveLoop fs p2 dirs cd cn = .ok r := by
  intro dirs
  induction dirs with
  | nil => intro cd cn r h; exact h
  | cons d rest ih =>
    intro cd cn r h
    rw [resolveLoop_cons] at h ⊢
    cases hs : stepDir fs p1 cd d <;> rw [hs] at h
    · cases h
    · rename_i r'
      rw [stepDir_ok_path fs p1 p2 cd d r' hs]
      exact ih r'.1 r'.2 r h

end Irmx86

namespace Irmx86

/-- Claim C6: for an absolute path, (1) every not-found failure of path
resolution names the full original path; (2) an intermediate segment
missing from the directory reached at its step makes resolution fail
with a not-found error naming the full path; (3) if the intermediate
steps succeed, an empty final segment yields the last node reached,
while a non-empty final segment missing from the last directory is a
not-found failure naming the full path. -/
theorem c6_path_resolution (fs : FS) (path : String) (rd : Dict)
    (habs : path.data.take 1 = ['/'])
    (hroot : readDirectory fs fs.root = Except.ok rd) :
    (∀ q, pathToFnode fs path = .error (.notFound q) → q = path) ∧
    (∀ pre d post cd cn,
      ((splitChars '/' path.data).drop 1).dropLast = pre ++ d :: post →
      resolveLoop fs path pre rd fs.root = .ok (cd, cn) →
      dictLookup cd (segKey d) = none →
      pathToFnode fs path = .error (.notFound path)) ∧
    (∀ cd cn,
      resolveLoop fs path ((splitChars '/' path.data).drop 1).dropLast rd fs.root =
        .ok (cd, cn) →
      (((splitChars '/' path.data).drop 1).getLastD [] = [] →
        pathToFnode fs path = .ok cn) ∧
      (∀ f, ((splitChars '/' path.data).drop 1).getLastD [] = f → f ≠ [] →
        dictLookup cd (segKey f) = none →
        pathToFnode fs path = .error (.notFound path))) := by
  refine ⟨?_, ?_, ?_⟩
  · intro q h
    unfold pathToFnode at h
    rw [hroot] at h
    dsimp only at h
    cases hloop : resolveLoop fs path ((splitChars '/' path.data).drop 1).dropLast rd
        fs.root <;> rw [hloop] at h <;> dsimp only at h
    · rename_i e
      injection h with h'
      rw [h'] at hloop
      exact resolveLoop_notFound fs path _ rd fs.root q hloop
    · rename_i r
      by_cases hemp : (((splitChars '/' path.data).drop 1).getLastD []).isEmpty = true
      · rw [if_pos hemp] at h
        cases h
      · rw [if_neg hemp] at h
        cases hlk : dictLookup r.1 (segKey (((splitChars '/' path.data).drop 1).getLastD
            [])) <;> rw [hlk] at h <;> dsimp only at h
        · injection h with h'
          injection h' with h''
          exact h''.symm
        · cases h
  · intro pre d post cd cn hsplit hpre hd
    unfold pathToFnode
    rw [hroot]
    dsimp only
    rw [hsplit, resolveLoop_append, hpre]
    dsimp only
    rw [resolveLoop_cons]
    rw [show stepDir fs path cd d = .error (.notFound path) from by
      unfold stepDir
      rw [hd]]
  · intro cd cn hloop
    constructor
    · intro hemp
      unfold pathToFnode
      rw [hroot]
      dsimp only
      rw [hloop]
      dsimp only
      rw [hemp]
      rfl
    · intro f hf hne hlk
      unfold pathToFnode
      rw [hroot]
      dsimp only
      rw [hloop]
      dsimp only
      rw [hf]
      rw [if_neg (by
        cases f with
        | nil => exact absurd rfl hne
        | cons a as => simp)]
      rw [hlk]

end Irmx86

namespace Irmx86

/-- Witness for C6 on the synthetic session: the empty-final-segment
path `/A/` resolves to the directory node `A`, and the missing
intermediate segment of `/B/X` fails naming the full path. -/
theorem c6_path_resolution_witness :
    pathToFnode fsW "/A/" = Except.ok node1W ∧
    pathToFnode fsW "/B/X" = Except.error (PyError.notFound "/B/X") :=
  ⟨((c6_path_resolution fsW "/A/" [([65], node1W)] (by decide) (by decide)).2.2
      [([67], node2W)] node1W (by decide)).1 (by decide),
    (c6_path_resolution fsW "/B/X" [([65], node1W)] (by decide) (by decide)).2.1
      [] ['B'] [] [([65], node1W)] rootW (by decide) (by decide) (by decide)⟩

/-- Claim C7: path resolution is a left fold over segments — if a path
whose segments are `ds ++ [c]` (with non-empty names) resolves to `n`,
then the parent path with segments `ds` resolves to some node `m`, and
looking up `c` in the decoded directory of `m` yields exactly `n`. -/
theorem c7_left_fold (fs : FS) (path parent : String) (ds : List (List Char))
    (c : List Char) (n : FileNode)
    (hsplit : (splitChars '/' path.data).drop 1 = ds ++ [c])
    (hparent : (splitChars '/' parent.data).drop 1 = ds)
    (hc : c ≠ [])
    (hds : ds.getLastD ['/'] ≠ [])
    (h : pathToFnode fs path = .ok n) :
    ∃ m dict, pathToFnode fs parent = .ok m ∧ readDirectory fs m = .ok dict ∧
      dictLookup dict (segKey c) = some n := by
  unfold pathToFnode at h
  cases hroot : readDirectory fs fs.root <;> rw [hroot] at h
  · cases h
  · rename_i rd
    dsimp only at h
    rw [hsplit, List.dropLast_concat] at h
    rw [show (ds ++ [c]).getLastD [] = c from by simp] at h
    cases hloop : resolveLoop fs path ds rd fs.root <;> rw [hloop] at h <;> dsimp only at h
    · cases h
    · rename_i r
      obtain ⟨cd, cn⟩ := r
      rw [if_neg (by
        cases c with
        | nil => exact absurd rfl hc
        | cons a as => simp)] at h
      cases hlk : dictLookup cd (segKey c) <;> rw [hlk] at h <;> dsimp only at h
      · cases h
      · rename_i node
        injection h with h'
        subst h'
        rcases List.eq_nil_or_concat ds with hnil | ⟨es, f, hconcat⟩
        · subst hnil
          rw [resolveLoop_nil] at hloop
          injection hloop with h2
          injection h2 with h2a h2b
          subst h2a
          subst h2b
          refine ⟨fs.root, rd, ?_, hroot, hlk⟩
          unfold pathToFnode
          rw [hroot]
          dsimp only
          rw [hparent]
          rfl
        · subst hconcat
          simp only [List.concat_eq_append] at hparent hloop hds
          have hf : f ≠ [] := by simpa using hds
          rw [resolveLoop_append] at hloop
          cases hpre : resolveLoop fs path es rd fs.root <;> rw [hpre] at hloop <;>
            dsimp only at hloop
          · cases hloop
          · rename_i r'
            obtain ⟨cd', cn'⟩ := r'
            rw [resolveLoop_cons] at hloop
            cases hstep : stepDir fs path cd' f <;> rw [hstep] at hloop <;>
              dsimp only at hloop
            · cases hloop
            · rename_i r''
              obtain ⟨dict', node'⟩ := r''
              rw [resolveLoop_nil] at hloop
              injection hloop with h2
              injection h2 with h2a h2b
              subst h2a
              subst h2b
              unfold stepDir at hstep
              cases hlf : dictLookup cd' (segKey f) <;> rw [hlf] at hstep <;>
                dsimp only at hstep
              · cases hstep
              · rename_i node2
                cases hrd : readDirectory fs node2 <;> rw [hrd] at hstep
                · rename_i e
                  cases e <;> dsimp only at hstep <;> cases hstep
                · rename_i dict2
                  dsimp only at hstep
                  injection hstep with h3
                  injection h3 with h3a h3b
                  subst h3a
                  subst h3b
                  refine ⟨node2, dict2, ?_, hrd, hlk⟩
                  unfold pathToFnode
                  rw [hroot]
                  dsimp only
                  rw [hparent, List.dropLast_concat]
                  rw [show (es ++ [f]).getLastD [] = f from by simp]
                  rw [resolveLoop_ok_path fs path parent es rd fs.root (cd', cn') hpre]
                  dsimp only
                  rw [if_neg (by
                    cases f with
                    | nil => exact absurd rfl hf
                    | cons a as => simp)]
                  rw [hlf]

/-- Witness for C7 on the synthetic session: `/A/C` resolves to node 2,
and equally `/A` resolves to node 1 whose directory entry `C` is node 2. -/
theorem c7_left_fold_witness :
    ∃ m dict, pathToFnode fsW "/A" = Except.ok m ∧
      readDirectory fsW m = Except.ok dict ∧
      dictLookup dict (segKey ['C']) = some node2W :=
  c7_left_fold fsW "/A/C" "/A" [['A']] ['C'] node2W (by decide) (by decide)
    (by decide) (by decide) (by decide)

end Irmx86
